import Mathlib

/-!
Verification of `src/packages/gatsby-source-contentful/src/generate-schema.js`.

The JavaScript module is shallowly embedded below: the dispatch table
`ContentfulDataTypes`, the recursive translator `translateFieldType`, the
schema assembler `generateSchema` (modelled as the sequence of type
declarations it registers through `createTypes`, plus the error it throws,
if any), and the rich-text link resolver `makeRichTextLinksResolver`.
Fallible JavaScript evaluation (a `TypeError` thrown at runtime) is modelled
with `Except String`, carrying the runtime error message.
-/

namespace ContentfulSchema

/-- A Contentful field definition, as consumed by `translateFieldType`.
The optional `items` sub-definition of JavaScript field objects is encoded
by two constructors (`field0`: no `items` property, `field1`: with `items`)
so that the translator's recursion into `items` is structural.  `linkType`
holds the string of the field's `linkType` property (used only when the
field or its items have type `Link`). -/
inductive Field where
  | field0 (id : String) (ftype : String) (required : Bool) (linkType : String)
      (disabled : Bool) (omitted : Bool) : Field
  | field1 (id : String) (ftype : String) (required : Bool) (linkType : String)
      (items : Field) (disabled : Bool) (omitted : Bool) : Field
deriving Repr, DecidableEq

/-- `field.id` -/
def Field.id : Field → String
  | .field0 i _ _ _ _ _ => i
  | .field1 i _ _ _ _ _ _ => i

/-- `field.type` -/
def Field.type : Field → String
  | .field0 _ t _ _ _ _ => t
  | .field1 _ t _ _ _ _ _ => t

/-- `field.required` -/
def Field.required : Field → Bool
  | .field0 _ _ r _ _ _ => r
  | .field1 _ _ r _ _ _ _ => r

/-- `field.linkType` -/
def Field.linkType : Field → String
  | .field0 _ _ _ l _ _ => l
  | .field1 _ _ _ l _ _ _ => l

/-- `field.items` (absent on `field0`). -/
def Field.items : Field → Option Field
  | .field0 _ _ _ _ _ _ => none
  | .field1 _ _ _ _ it _ _ => some it

/-- `field.disabled` -/
def Field.disabled : Field → Bool
  | .field0 _ _ _ _ d _ => d
  | .field1 _ _ _ _ _ d _ => d

/-- `field.omitted` -/
def Field.omitted : Field → Bool
  | .field0 _ _ _ _ _ o => o
  | .field1 _ _ _ _ _ _ o => o

/-- The same field with its `required` flag replaced. -/
def Field.withRequired : Field → Bool → Field
  | .field0 i t _ l d o, r => .field0 i t r l d o
  | .field1 i t _ l it d o, r => .field1 i t r l it d o

/-- A `link` extension object `{ by: ..., from: ... }`.  The `by` key is
optional in the source (the asset `localFile` field uses `{ from: ... }`
alone), hence `Option`. -/
structure LinkExt where
  linkBy : Option String
  linkFrom : String
deriving Repr, DecidableEq

/-- The `extensions` object of a field descriptor, as it occurs in the
source: either a `link` directive or an (empty) `dateformat` directive. -/
inductive Ext where
  | link (l : LinkExt) : Ext
  | dateformat : Ext
deriving Repr, DecidableEq

/-- A schema field descriptor `{ type, extensions? }`. -/
structure FieldType where
  type : String
  extensions : Option Ext := none
deriving Repr, DecidableEq

/-- The dispatch table `ContentfulDataTypes`: primitive Contentful field
type name ↦ descriptor-producing function. -/
def ContentfulDataTypes : List (String × (Field → FieldType)) :=
  [ ("Symbol", fun _ => { type := "String" }),
    ("Text", fun field =>
      { type := "ContentfulText",
        extensions := some (.link { linkBy := some "id", linkFrom := field.id ++ "___NODE" }) }),
    ("Integer", fun _ => { type := "Int" }),
    ("Number", fun _ => { type := "Float" }),
    ("Date", fun _ => { type := "Date", extensions := some .dateformat }),
    ("Object", fun _ => { type := "JSON" }),
    ("Boolean", fun _ => { type := "Boolean" }),
    ("Location", fun _ => { type := "ContentfulLocation" }),
    ("RichText", fun _ => { type := "ContentfulRichText" }) ]

/-- `getLinkFieldType(linkType, field)`. -/
def getLinkFieldType (linkType : String) (field : Field) : FieldType :=
  { type := "Contentful" ++ linkType,
    extensions := some (.link { linkBy := some "id", linkFrom := field.id ++ "___NODE" }) }

/-- `if (field.required) fieldType.type = fieldType.type + "!"`. -/
def applyRequired (required : Bool) (ft : FieldType) : FieldType :=
  if required then { ft with type := ft.type ++ "!" } else ft

/-- The non-`Array` branches of `translateFieldType`: the `Link` case and
the dispatch-table case.  A dispatch-table miss models the JavaScript
`TypeError` raised by calling `undefined` as a function. -/
def translateNonArray (f : Field) : Except String FieldType :=
  if f.type = "Link" then .ok (getLinkFieldType f.linkType f)
  else
    match ContentfulDataTypes.lookup f.type with
    | some fn => .ok (fn f)
    | none => .error "ContentfulDataTypes.get(...) is not a function"

/-- `translateFieldType(field)`.  An `Array` field without an `items`
property models the JavaScript `TypeError` from reading
`field.items.type` on `undefined`. -/
def translateFieldType : Field → Except String FieldType
  | .field0 i t r l d o =>
    if t = "Array" then
      .error "Cannot read properties of undefined (reading 'type')"
    else
      (translateNonArray (.field0 i t r l d o)).map (applyRequired r)
  | .field1 i t r l items d o =>
    if t = "Array" then
      ((if items.type = "Link" then
          .ok (getLinkFieldType items.linkType (.field1 i t r l items d o))
        else
          translateFieldType items).map
        (fun fieldData => { fieldData with type := "[" ++ fieldData.type ++ "]" })).map
        (applyRequired r)
    else
      (translateNonArray (.field1 i t r l items d o)).map (applyRequired r)

/-- JavaScript object assignment `obj[k] = v` on a string-keyed object
represented as an association list in key-insertion order: the value of an
existing key is replaced in place, a new key is appended at the end. -/
def objSet : List (String × FieldType) → String → FieldType → List (String × FieldType)
  | [], k, v => [(k, v)]
  | (k', v') :: rest, k, v =>
    if k' = k then (k, v) :: rest else (k', v') :: objSet rest k v

/-- JavaScript object spread `{ ...base, ...entries }`: each entry of
`entries` is assigned into `base` in order. -/
def objSpread (base : List (String × FieldType)) : List (String × FieldType) → List (String × FieldType)
  | [] => base
  | (k, v) :: rest => objSpread (objSet base k v) rest

/-- A type declaration as registered with `createTypes`.  SDL template
strings and `schema.buildObjectType` calls are both modelled this way.
Field resolver functions (on the rich-text helper types) are not recorded
here; the rich-text resolver itself is modelled separately as
`makeRichTextLinksResolver`. -/
structure TypeDecl where
  name : String
  isInterface : Bool := false
  fields : List (String × FieldType) := []
  interfaces : List String := []
  dontInfer : Bool := false
deriving Repr, DecidableEq

/-- The `sys` object of a content-type item (only `sys.id` is read). -/
structure ContentTypeSys where
  id : String
deriving Repr, DecidableEq

/-- A Contentful content-type item, as consumed by `generateSchema`. -/
structure ContentTypeItem where
  sys : ContentTypeSys
  name : String
  fields : List Field
deriving Repr, DecidableEq

/-- The body of the `contentTypeItem.fields.forEach` loop: skip disabled or
omitted fields, otherwise `fields[field.id] = translateFieldType(field)`.
An exception thrown by `translateFieldType` aborts the loop. -/
def buildContentTypeFields : List Field → List (String × FieldType) →
    Except String (List (String × FieldType))
  | [], acc => .ok acc
  | f :: rest, acc =>
    if f.disabled || f.omitted then buildContentTypeFields rest acc
    else
      match translateFieldType f with
      | .error e => .error e
      | .ok t => buildContentTypeFields rest (objSet acc f.id t)

/-- The three fixed fields of every generated content-type object type. -/
def fixedContentTypeFields : List (String × FieldType) :=
  [ ("id", { type := "ID!" }),
    ("sys", { type := "ContentfulSys!" }),
    ("metadata", { type := "ContentfulMetadata!" }) ]

/-- One iteration of the content-type loop of `generateSchema`: build the
field map, pick the type name per `useNameForId`, and construct the object
type; a thrown error is annotated with the content type's name (falling
back to `sys.id` when the name is falsy) plus the original message.
`makeTypeName` (from `./normalize`) is passed in as a parameter. -/
def buildContentTypeDecl (makeTypeName : String → String) (useNameForId : Bool)
    (item : ContentTypeItem) : Except String TypeDecl :=
  match buildContentTypeFields item.fields [] with
  | .error e =>
    .error ("Unable to create schema for Contentful Content Type "
      ++ (if item.name = "" then item.sys.id else item.name) ++ ":\n" ++ e)
  | .ok fields =>
    .ok { name := makeTypeName (if useNameForId then item.name else item.sys.id),
          fields := objSpread fixedContentTypeFields fields,
          interfaces := ["ContentfulReference", "ContentfulEntry", "Node"],
          dontInfer := true }

/-- The `for (const contentTypeItem of contentTypeItems)` loop: returns the
object types registered before any failure, and the re-raised (annotated)
error, if one was thrown.  After a failure no further content type is
processed. -/
def processContentTypes (makeTypeName : String → String) (useNameForId : Bool) :
    List ContentTypeItem → List TypeDecl × Option String
  | [] => ([], none)
  | item :: rest =>
    match buildContentTypeDecl makeTypeName useNameForId item with
    | .error e => ([], some e)
    | .ok d =>
      let (ds, err) := processContentTypes makeTypeName useNameForId rest
      (d :: ds, err)

/-- Modelled from the spec: `addRemoteFilePolyfillInterface` (from
`gatsby-plugin-utils/polyfill-remote-file`, not part of this source tree)
augments an object-type declaration with the fields and interfaces required
for generic remote-file support; it does not alter the declaration's
extensions. -/
def addRemoteFilePolyfillInterface (t : TypeDecl) : TypeDecl :=
  { t with interfaces := t.interfaces ++ ["RemoteFile"] }

/-- The `gatsbyImageData` field of `ContentfulAsset` delegates to the
external image subsystem (`getGatsbyImageFieldConfig`); its descriptor is
taken as a parameter `gatsbyImageData` below. -/
def assetFields (gatsbyImageData : FieldType) (downloadLocal : Bool) :
    List (String × FieldType) :=
  [ ("contentful_id", { type := "String!" }),
    ("id", { type := "ID!" }),
    ("gatsbyImageData", gatsbyImageData) ]
  ++ (if downloadLocal then
        [("localFile",
          { type := "File",
            extensions := some (.link { linkBy := none, linkFrom := "fields.localFile" }) })]
      else [])
  ++ [ ("sys", { type := "ContentfulSys" }),
       ("title", { type := "String" }),
       ("description", { type := "String" }),
       ("contentType", { type := "String" }),
       ("fileName", { type := "String" }),
       ("url", { type := "String" }),
       ("size", { type := "Int" }),
       ("width", { type := "Int" }),
       ("height", { type := "Int" }),
       ("metadata", { type := "ContentfulMetadata!" }) ]

/-- The fixed type declarations emitted by `generateSchema`, in emission
order, before the per-content-type loop.  The first four transcribe the SDL
template strings of the source (where `@dontInfer` appears literally on
`ContentfulSys` and `ContentfulEntry` only); the rest transcribe the
`schema.buildObjectType` calls. -/
def fixedTypeDecls (gatsbyImageData : FieldType) (downloadLocal : Bool) : List TypeDecl :=
  [ { name := "ContentfulReference",
      isInterface := true,
      fields := [("id", { type := "ID!" }), ("sys", { type := "ContentfulSys!" })],
      interfaces := ["Node"] },
    { name := "ContentfulContentType",
      fields := [ ("id", { type := "ID!" }),
                  ("name", { type := "String!" }),
                  ("displayField", { type := "String!" }),
                  ("description", { type := "String!" }) ],
      interfaces := ["Node"] },
    { name := "ContentfulSys",
      fields := [ ("type", { type := "String!" }),
                  ("id", { type := "String!" }),
                  ("spaceId", { type := "String!" }),
                  ("environmentId", { type := "String!" }),
                  ("contentType",
                    { type := "ContentfulContentType",
                      extensions := some (.link { linkBy := some "id", linkFrom := "contentType___NODE" }) }),
                  ("firstPublishedAt", { type := "Date!" }),
                  ("publishedAt", { type := "Date!" }),
                  ("publishedVersion", { type := "Int!" }),
                  ("locale", { type := "String!" }) ],
      dontInfer := true },
    { name := "ContentfulEntry",
      isInterface := true,
      fields := [ ("id", { type := "ID!" }),
                  ("sys", { type := "ContentfulSys!" }),
                  ("metadata", { type := "ContentfulMetadata!" }) ],
      interfaces := ["ContentfulReference", "Node"],
      dontInfer := true },
    { name := "ContentfulMetadata",
      fields := [ ("tags",
                    { type := "[ContentfulTag]!",
                      extensions := some (.link { linkBy := some "id", linkFrom := "tags___NODE" }) }) ],
      dontInfer := true },
    { name := "ContentfulTag",
      fields := [ ("name", { type := "String!" }),
                  ("contentful_id", { type := "String!" }),
                  ("id", { type := "ID!" }) ],
      interfaces := ["Node"],
      dontInfer := true },
    addRemoteFilePolyfillInterface
      { name := "ContentfulAsset",
        fields := assetFields gatsbyImageData downloadLocal,
        interfaces := ["ContentfulReference", "Node"] },
    { name := "ContentfulRichTextAssets",
      fields := [ ("block", { type := "[ContentfulAsset]!" }),
                  ("hyperlink", { type := "[ContentfulAsset]!" }) ] },
    { name := "ContentfulRichTextEntries",
      fields := [ ("inline", { type := "[ContentfulEntry]!" }),
                  ("block", { type := "[ContentfulEntry]!" }),
                  ("hyperlink", { type := "[ContentfulEntry]!" }) ] },
    { name := "ContentfulRichTextLinks",
      fields := [ ("assets", { type := "ContentfulRichTextAssets" }),
                  ("entries", { type := "ContentfulRichTextEntries" }) ] },
    { name := "ContentfulRichText",
      fields := [ ("json", { type := "JSON" }),
                  ("links", { type := "ContentfulRichTextLinks" }) ],
      dontInfer := true },
    { name := "ContentfulLocation",
      fields := [ ("lat", { type := "Float!" }), ("lon", { type := "Float!" }) ],
      dontInfer := true },
    { name := "ContentfulText",
      fields := [("raw", { type := "String!" })],
      interfaces := ["Node"],
      dontInfer := true } ]

/-- `generateSchema`: the sequence of type declarations registered with
`createTypes` (fixed declarations, then one object type per content type
until the first failure) together with the re-raised error, if any. -/
def generateSchema (makeTypeName : String → String) (gatsbyImageData : FieldType)
    (useNameForId downloadLocal : Bool) (contentTypeItems : List ContentTypeItem) :
    List TypeDecl × Option String :=
  let (decls, err) := processContentTypes makeTypeName useNameForId contentTypeItems
  (fixedTypeDecls gatsbyImageData downloadLocal ++ decls, err)

/-- `node.sys` of a stored node (only `id` and `type` are read). -/
structure NodeSys where
  id : String
  type : String
deriving Repr, DecidableEq

/-- `node.internal` of a stored node (only `owner` is read). -/
structure NodeInternal where
  owner : String
deriving Repr, DecidableEq

/-- A node of the data store, as read by the rich-text link resolver.
`sys` is `Option`al, modelling the optional chaining `node?.sys?.id`. -/
structure NodeRec where
  internal : NodeInternal
  sys : Option NodeSys
deriving Repr, DecidableEq

/-- `makeRichTextLinksResolver(nodeType, entityType)` applied to a source
document and the node store.  The external `getRichTextEntityLinks` helper
is a parameter: `(document, nodeType, entityType) ↦ extracted entity ids`
(the source indexes its result object by `entityType` and keeps the ids).
The JavaScript guard `node?.sys?.id` is truthiness: `sys` present with a
non-empty `id`. -/
def makeRichTextLinksResolver {α : Type}
    (getRichTextEntityLinks : α → String → String → List String)
    (nodeType entityType : String) (source : α) (allNodes : List NodeRec) :
    List NodeRec :=
  let links := getRichTextEntityLinks source nodeType entityType
  allNodes.filter fun node =>
    node.internal.owner == "gatsby-source-contentful" &&
    (match node.sys with
     | some s => s.id != "" && s.type == entityType && links.contains s.id
     | none => false)

/-- The ids of the fields of a content type that are neither disabled nor
omitted (the fields that contribute an entry to the generated field map). -/
def enabledIds (fs : List Field) : List String :=
  (fs.filter fun f => !(f.disabled || f.omitted)).map Field.id

/-- The registered primitive type names, in table order. -/
def registeredTypeNames : List String :=
  ContentfulDataTypes.map Prod.fst

/-- A sample content-type item with a single required Symbol field. -/
def blogPostItem : ContentTypeItem :=
  { sys := { id := "blogPost" },
    name := "BlogPost",
    fields := [.field0 "title" "Symbol" true "" false false] }

/-- The object type generated for `blogPostItem`. -/
def blogPostDecl : TypeDecl :=
  { name := "BlogPost",
    fields := [ ("id", { type := "ID!" }),
                ("sys", { type := "ContentfulSys!" }),
                ("metadata", { type := "ContentfulMetadata!" }),
                ("title", { type := "String!" }) ],
    interfaces := ["ContentfulReference", "ContentfulEntry", "Node"],
    dontInfer := true }

/-- A content-type item whose model fields reuse the fixed field id `sys`. -/
def shadowItem : ContentTypeItem :=
  { sys := { id := "shadow" },
    name := "Shadow",
    fields := [.field0 "sys" "Symbol" false "" false false] }

/-- A content-type item with a field of an unregistered primitive type. -/
def brokenItem : ContentTypeItem :=
  { sys := { id := "badType" },
    name := "Broken",
    fields := [.field0 "mystery" "Unknown" false "" false false] }

/-- A stored Asset node owned by this source plugin whose `sys.id` is the
empty string. -/
def emptyIdAssetNode : NodeRec :=
  { internal := { owner := "gatsby-source-contentful" },
    sys := some { id := "", type := "Asset" } }

theorem ContentfulDataTypes_lookup_eq_none (t : String)
    (h : t ∉ registeredTypeNames) : ContentfulDataTypes.lookup t = none := by
  simp [registeredTypeNames, ContentfulDataTypes] at h
  obtain ⟨h1, h2, h3, h4, h5, h6, h7, h8, h9⟩ := h
  have b1 : (t == "Symbol") = false := by simpa using h1
  have b2 : (t == "Text") = false := by simpa using h2
  have b3 : (t == "Integer") = false := by simpa using h3
  have b4 : (t == "Number") = false := by simpa using h4
  have b5 : (t == "Date") = false := by simpa using h5
  have b6 : (t == "Object") = false := by simpa using h6
  have b7 : (t == "Boolean") = false := by simpa using h7
  have b8 : (t == "Location") = false := by simpa using h8
  have b9 : (t == "RichText") = false := by simpa using h9
  simp [ContentfulDataTypes, List.lookup, b1, b2, b3, b4, b5, b6, b7, b8, b9]

theorem objSet_keys_mem (m : List (String × FieldType)) (k : String) (v : FieldType)
    (k' : String) : k' ∈ (objSet m k v).map Prod.fst ↔ k' ∈ m.map Prod.fst ∨ k' = k := by
  induction m with
  | nil => simp [objSet]
  | cons p rest ih =>
    obtain ⟨k0, v0⟩ := p
    by_cases h : k0 = k
    · subst h
      simp [objSet]
      tauto
    · simp [objSet, h, ih]
      tauto

theorem objSet_nodup (m : List (String × FieldType)) (k : String) (v : FieldType)
    (h : (m.map Prod.fst).Nodup) : ((objSet m k v).map Prod.fst).Nodup := by
  induction m with
  | nil => simp [objSet]
  | cons p rest ih =>
    obtain ⟨k0, v0⟩ := p
    simp only [List.map_cons, List.nodup_cons] at h
    obtain ⟨h1, h2⟩ := h
    by_cases hk : k0 = k
    · have hrw : objSet ((k0, v0) :: rest) k v = (k, v) :: rest := by simp [objSet, hk]
      rw [hrw]
      simp only [List.map_cons, List.nodup_cons]
      exact ⟨hk ▸ h1, h2⟩
    · simp only [objSet, if_neg hk, List.map_cons, List.nodup_cons]
      refine ⟨?_, ih h2⟩
      intro hmem
      rw [objSet_keys_mem] at hmem
      rcases hmem with h | h
      · exact h1 h
      · exact hk h

theorem objSet_lookup_self (m : List (String × FieldType)) (k : String) (v : FieldType) :
    (objSet m k v).lookup k = some v := by
  induction m with
  | nil => simp [objSet, List.lookup]
  | cons p rest ih =>
    obtain ⟨k0, v0⟩ := p
    by_cases hk : k0 = k
    · subst hk
      simp [objSet, List.lookup]
    · have hne : (k == k0) = false := by
        simp only [beq_eq_false_iff_ne, ne_eq]
        exact fun hh => hk hh.symm
      simp [objSet, hk, List.lookup, hne, ih]

theorem objSet_lookup_ne (m : List (String × FieldType)) (k : String) (v : FieldType)
    (k' : String) (h : k' ≠ k) : (objSet m k v).lookup k' = m.lookup k' := by
  have hne : (k' == k) = false := by
    simp only [beq_eq_false_iff_ne, ne_eq]
    exact h
  induction m with
  | nil => simp [objSet, List.lookup, hne]
  | cons p rest ih =>
    obtain ⟨k0, v0⟩ := p
    by_cases hk : k0 = k
    · subst hk
      simp [objSet, List.lookup, hne]
    · cases hbe : (k' == k0) with
      | true => simp [objSet, hk, List.lookup, hbe]
      | false => simp [objSet, hk, List.lookup, hbe, ih]

theorem objSpread_keys_mem (fs : List (String × FieldType)) :
    ∀ (base : List (String × FieldType)) (k : String),
      k ∈ (objSpread base fs).map Prod.fst ↔ k ∈ base.map Prod.fst ∨ k ∈ fs.map Prod.fst := by
  induction fs with
  | nil => simp [objSpread]
  | cons p rest ih =>
    intro base k
    obtain ⟨k0, v0⟩ := p
    simp only [objSpread, ih, objSet_keys_mem, List.map_cons, List.mem_cons]
    tauto

theorem objSpread_nodup (fs : List (String × FieldType)) :
    ∀ base : List (String × FieldType), (base.map Prod.fst).Nodup →
      ((objSpread base fs).map Prod.fst).Nodup := by
  induction fs with
  | nil => intro base h; exact h
  | cons p rest ih =>
    intro base h
    obtain ⟨k0, v0⟩ := p
    exact ih _ (objSet_nodup base k0 v0 h)

theorem objSpread_lookup_not_mem (fs : List (String × FieldType)) :
    ∀ (base : List (String × FieldType)) (k : String), k ∉ fs.map Prod.fst →
      (objSpread base fs).lookup k = base.lookup k := by
  induction fs with
  | nil => intro base k _; rfl
  | cons p rest ih =>
    intro base k h
    obtain ⟨k0, v0⟩ := p
    simp only [List.map_cons, List.mem_cons, not_or] at h
    rw [objSpread, ih _ _ h.2, objSet_lookup_ne _ _ _ _ h.1]

theorem objSpread_lookup_mem (fs : List (String × FieldType)) :
    ∀ (base : List (String × FieldType)) (k : String) (v : FieldType),
      (fs.map Prod.fst).Nodup → fs.lookup k = some v →
      (objSpread base fs).lookup k = some v := by
  induction fs with
  | nil => intro base k v _ hl; simp [List.lookup] at hl
  | cons p rest ih =>
    intro base k v hnd hl
    obtain ⟨k0, v0⟩ := p
    simp only [List.map_cons, List.nodup_cons] at hnd
    cases hbe : (k == k0) with
    | true =>
      have hk : k = k0 := by simpa using hbe
      subst hk
      simp only [List.lookup, hbe] at hl
      cases hl
      rw [objSpread, objSpread_lookup_not_mem rest _ _ hnd.1, objSet_lookup_self]
    | false =>
      simp only [List.lookup, hbe] at hl
      exact ih _ _ _ hnd.2 hl

theorem mem_enabledIds (fs : List Field) (f : Field) (hf : f ∈ fs)
    (he : (f.disabled || f.omitted) = false) : f.id ∈ enabledIds fs := by
  simp only [enabledIds, List.mem_map]
  exact ⟨f, List.mem_filter.mpr ⟨hf, by simp [he]⟩, rfl⟩

theorem buildContentTypeFields_keys_mem (fs : List Field) :
    ∀ acc out, buildContentTypeFields fs acc = .ok out →
      ∀ k, k ∈ out.map Prod.fst ↔
        k ∈ acc.map Prod.fst ∨ ∃ f ∈ fs, (f.disabled || f.omitted) = false ∧ f.id = k := by
  induction fs with
  | nil =>
    intro acc out h k
    simp only [buildContentTypeFields] at h
    cases h
    simp
  | cons f rest ih =>
    intro acc out h k
    simp only [buildContentTypeFields] at h
    by_cases hskip : (f.disabled || f.omitted) = true
    · rw [if_pos hskip] at h
      rw [ih acc out h k]
      simp only [List.mem_cons]
      constructor
      · rintro (hm | ⟨g, hg, hge, hgid⟩)
        · exact Or.inl hm
        · exact Or.inr ⟨g, Or.inr hg, hge, hgid⟩
      · rintro (hm | ⟨g, (rfl | hg), hge, hgid⟩)
        · exact Or.inl hm
        · rw [hskip] at hge; simp at hge
        · exact Or.inr ⟨g, hg, hge, hgid⟩
    · rw [if_neg hskip] at h
      rw [Bool.not_eq_true] at hskip
      cases htr : translateFieldType f with
      | error e => rw [htr] at h; cases h
      | ok t =>
        rw [htr] at h
        rw [ih _ _ h k, objSet_keys_mem]
        simp only [List.mem_cons]
        constructor
        · rintro ((hm | hid) | ⟨g, hg, hge, hgid⟩)
          · exact Or.inl hm
          · exact Or.inr ⟨f, Or.inl rfl, hskip, hid.symm⟩
          · exact Or.inr ⟨g, Or.inr hg, hge, hgid⟩
        · rintro (hm | ⟨g, (rfl | hg), hge, hgid⟩)
          · exact Or.inl (Or.inl hm)
          · exact Or.inl (Or.inr hgid.symm)
          · exact Or.inr ⟨g, hg, hge, hgid⟩

theorem buildContentTypeFields_nodup (fs : List Field) :
    ∀ acc out, buildContentTypeFields fs acc = .ok out →
      (acc.map Prod.fst).Nodup → (out.map Prod.fst).Nodup := by
  induction fs with
  | nil =>
    intro acc out h hnd
    simp only [buildContentTypeFields] at h
    cases h
    exact hnd
  | cons f rest ih =>
    intro acc out h hnd
    simp only [buildContentTypeFields] at h
    by_cases hskip : (f.disabled || f.omitted) = true
    · rw [if_pos hskip] at h
      exact ih acc out h hnd
    · rw [if_neg hskip] at h
      cases htr : translateFieldType f with
      | error e => rw [htr] at h; cases h
      | ok t =>
        rw [htr] at h
        exact ih _ _ h (objSet_nodup acc f.id t hnd)

theorem buildContentTypeFields_lookup_untouched (fs : List Field) :
    ∀ acc out k, buildContentTypeFields fs acc = .ok out →
      (∀ f ∈ fs, (f.disabled || f.omitted) = false → f.id ≠ k) →
      out.lookup k = acc.lookup k := by
  induction fs with
  | nil =>
    intro acc out k h _
    simp only [buildContentTypeFields] at h
    cases h
    rfl
  | cons f rest ih =>
    intro acc out k h hne
    simp only [buildContentTypeFields] at h
    by_cases hskip : (f.disabled || f.omitted) = true
    · rw [if_pos hskip] at h
      exact ih acc out k h fun g hg => hne g (List.mem_cons_of_mem f hg)
    · rw [if_neg hskip] at h
      rw [Bool.not_eq_true] at hskip
      cases htr : translateFieldType f with
      | error e => rw [htr] at h; cases h
      | ok t =>
        rw [htr] at h
        rw [ih _ _ k h fun g hg => hne g (List.mem_cons_of_mem f hg)]
        exact objSet_lookup_ne acc f.id t k
          fun hk => hne f (List.mem_cons_self f rest) hskip hk.symm

theorem enabledIds_cons (g : Field) (rest : List Field) :
    enabledIds (g :: rest) =
      if (g.disabled || g.omitted) = true then enabledIds rest
      else g.id :: enabledIds rest := by
  cases hd : g.disabled <;> cases ho : g.omitted <;>
    simp [enabledIds, List.filter_cons, hd, ho]

theorem buildContentTypeFields_lookup_enabled (fs : List Field) :
    ∀ acc out, buildContentTypeFields fs acc = .ok out → (enabledIds fs).Nodup →
      ∀ f ∈ fs, (f.disabled || f.omitted) = false →
      ∃ t, translateFieldType f = .ok t ∧ out.lookup f.id = some t := by
  induction fs with
  | nil => intro acc out _ _ f hf; cases hf
  | cons g rest ih =>
    intro acc out h hnd f hf hen
    simp only [buildContentTypeFields] at h
    rw [enabledIds_cons] at hnd
    by_cases hskip : (g.disabled || g.omitted) = true
    · rw [if_pos hskip] at h
      rw [if_pos hskip] at hnd
      rcases List.mem_cons.mp hf with rfl | hf'
      · rw [hskip] at hen; simp at hen
      · exact ih acc out h hnd f hf' hen
    · rw [if_neg hskip] at h
      rw [if_neg hskip] at hnd
      rw [Bool.not_eq_true] at hskip
      rw [List.nodup_cons] at hnd
      cases htr : translateFieldType g with
      | error e => rw [htr] at h; cases h
      | ok t =>
        rw [htr] at h
        rcases List.mem_cons.mp hf with rfl | hf'
        · have huntouched : ∀ f' ∈ rest, (f'.disabled || f'.omitted) = false →
              f'.id ≠ f.id := by
            intro f' hf'' he' hid
            exact hnd.1 (hid ▸ mem_enabledIds rest f' hf'' he')
          refine ⟨t, htr, ?_⟩
          rw [buildContentTypeFields_lookup_untouched rest _ _ _ h huntouched]
          exact objSet_lookup_self acc f.id t
        · exact ih _ _ h hnd.2 f hf' hen

theorem buildContentTypeDecl_ok_parts (makeTypeName : String → String) (useNameForId : Bool)
    (item : ContentTypeItem) (d : TypeDecl)
    (h : buildContentTypeDecl makeTypeName useNameForId item = .ok d) :
    ∃ fs, buildContentTypeFields item.fields [] = .ok fs ∧
      d.fields = objSpread fixedContentTypeFields fs ∧
      d.interfaces = ["ContentfulReference", "ContentfulEntry", "Node"] ∧
      d.dontInfer = true ∧
      d.name = makeTypeName (if useNameForId then item.name else item.sys.id) := by
  unfold buildContentTypeDecl at h
  cases hb : buildContentTypeFields item.fields [] with
  | error e => rw [hb] at h; cases h
  | ok fs =>
    rw [hb] at h
    cases h
    exact ⟨fs, rfl, rfl, rfl, rfl, rfl⟩

/-- C1: for every `Array` field with `required: true`, `translateFieldType`
applies the `!` modifier exactly once, as the outermost transformation after
list-wrapping (the translation equals the translation of the same field
with `required: false`, with a single `!` appended to the type string and
nothing else changed, so the `!` never reaches the element type); in
particular a required array-of-Symbol field translates to `[String]!`. -/
theorem required_array_outermost :
    (∀ f : Field, f.type = "Array" → f.required = true →
      translateFieldType f
        = (translateFieldType (f.withRequired false)).map
            (fun t => { t with type := t.type ++ "!" })) ∧
    translateFieldType
        (.field1 "tags" "Array" true ""
          (.field0 "tags" "Symbol" false "" false false) false false)
      = .ok { type := "[String]!" } := by
  constructor
  · intro f h1 h2
    cases f with
    | field0 i t r l d o =>
      simp only [Field.type] at h1
      simp only [Field.required] at h2
      subst h1; subst h2
      rfl
    | field1 i t r l items d o =>
      simp only [Field.type] at h1
      simp only [Field.required] at h2
      subst h1; subst h2
      by_cases hit : items.type = "Link"
      · simp [translateFieldType, Field.withRequired, hit, Except.map, applyRequired,
          getLinkFieldType, Field.id]
      · cases hrec : translateFieldType items with
        | error e =>
          simp [translateFieldType, Field.withRequired, hit, hrec, Except.map]
        | ok a =>
          simp [translateFieldType, Field.withRequired, hit, hrec, Except.map, applyRequired]
  · rfl

theorem required_array_outermost_witness :
    translateFieldType
        (.field1 "tags" "Array" true ""
          (.field0 "tags" "Symbol" false "" false false) false false)
      = (translateFieldType
          ((Field.field1 "tags" "Array" true ""
            (.field0 "tags" "Symbol" false "" false false) false false).withRequired false)).map
          (fun t => { t with type := t.type ++ "!" }) :=
  required_array_outermost.1
    (.field1 "tags" "Array" true "" (.field0 "tags" "Symbol" false "" false false) false false)
    rfl rfl

/-- C2: for every `Array` field whose items are `Link`s, the translation is
built by `getLinkFieldType` from `items.linkType` and the outer field's id,
list-wrapped, with the `link` extension preserved (and the outer `required`
flag applied afterwards); in particular an optional array of `Asset` links
on field `cover` translates to `[ContentfulAsset]` with a link extension
from `cover___NODE`. -/
theorem array_of_links_descriptor :
    (∀ f it : Field, f.type = "Array" → f.items = some it → it.type = "Link" →
      translateFieldType f
        = .ok (applyRequired f.required
            { type := "[" ++ ("Contentful" ++ it.linkType) ++ "]",
              extensions := some (.link { linkBy := some "id", linkFrom := f.id ++ "___NODE" }) })) ∧
    translateFieldType
        (.field1 "cover" "Array" false ""
          (.field0 "" "Link" false "Asset" false false) false false)
      = .ok { type := "[ContentfulAsset]",
              extensions := some (.link { linkBy := some "id", linkFrom := "cover___NODE" }) } := by
  constructor
  · intro f it h1 h2 h3
    cases f with
    | field0 i t r l d o => simp [Field.items] at h2
    | field1 i t r l items d o =>
      simp only [Field.type] at h1
      simp only [Field.items, Option.some.injEq] at h2
      subst h1; subst h2
      simp [translateFieldType, h3, Except.map, getLinkFieldType, Field.id, Field.required,
        applyRequired]
  · rfl

theorem array_of_links_descriptor_witness :
    translateFieldType
        (.field1 "cover" "Array" false ""
          (.field0 "" "Link" false "Asset" false false) false false)
      = .ok (applyRequired false
          { type := "[" ++ ("Contentful" ++ "Asset") ++ "]",
            extensions := some (.link { linkBy := some "id", linkFrom := "cover" ++ "___NODE" }) }) :=
  array_of_links_descriptor.1
    (.field1 "cover" "Array" false "" (.field0 "" "Link" false "Asset" false false) false false)
    (.field0 "" "Link" false "Asset" false false) rfl rfl rfl

/-- C3: every `Link` field translates to
`{ type: "Contentful" ++ linkType, extensions: { link: { by: "id", from: id ++ "___NODE" } } }`,
with `!` appended to the type string exactly when the field is required; in
particular a required `Entry` link on field `author` translates to
`ContentfulEntry!` with a link extension from `author___NODE`. -/
theorem link_field_descriptor :
    (∀ f : Field, f.type = "Link" →
      translateFieldType f
        = .ok (applyRequired f.required
            { type := "Contentful" ++ f.linkType,
              extensions := some (.link { linkBy := some "id", linkFrom := f.id ++ "___NODE" }) })) ∧
    translateFieldType (.field0 "author" "Link" true "Entry" false false)
      = .ok { type := "ContentfulEntry!",
              extensions := some (.link { linkBy := some "id", linkFrom := "author___NODE" }) } := by
  constructor
  · intro f h1
    cases f with
    | field0 i t r l d o =>
      simp only [Field.type] at h1
      subst h1
      rfl
    | field1 i t r l items d o =>
      simp only [Field.type] at h1
      subst h1
      rfl
  · rfl

theorem link_field_descriptor_witness :
    translateFieldType (.field0 "author" "Link" true "Entry" false false)
      = .ok (applyRequired true
          { type := "Contentful" ++ "Entry",
            extensions := some (.link { linkBy := some "id", linkFrom := "author" ++ "___NODE" }) }) :=
  link_field_descriptor.1 (.field0 "author" "Link" true "Entry" false false) rfl

/-- C4: every non-array, non-link field whose type is one of the nine
registered primitive types translates to exactly the fixed descriptor
registered in the dispatch table for that type, with the required flag
appending exactly one trailing `!` (via `applyRequired`) and nothing else. -/
theorem primitive_dispatch_exact (f : Field) :
    (f.type = "Symbol" →
      translateFieldType f = .ok (applyRequired f.required { type := "String" })) ∧
    (f.type = "Text" →
      translateFieldType f
        = .ok (applyRequired f.required
            { type := "ContentfulText",
              extensions := some (.link { linkBy := some "id", linkFrom := f.id ++ "___NODE" }) })) ∧
    (f.type = "Integer" →
      translateFieldType f = .ok (applyRequired f.required { type := "Int" })) ∧
    (f.type = "Number" →
      translateFieldType f = .ok (applyRequired f.required { type := "Float" })) ∧
    (f.type = "Date" →
      translateFieldType f
        = .ok (applyRequired f.required { type := "Date", extensions := some .dateformat })) ∧
    (f.type = "Object" →
      translateFieldType f = .ok (applyRequired f.required { type := "JSON" })) ∧
    (f.type = "Boolean" →
      translateFieldType f = .ok (applyRequired f.required { type := "Boolean" })) ∧
    (f.type = "Location" →
      translateFieldType f = .ok (applyRequired f.required { type := "ContentfulLocation" })) ∧
    (f.type = "RichText" →
      translateFieldType f = .ok (applyRequired f.required { type := "ContentfulRichText" })) := by
  cases f with
  | field0 i t r l d o =>
    refine ⟨?_, ?_, ?_, ?_, ?_, ?_, ?_, ?_, ?_⟩ <;>
      (intro h; simp only [Field.type] at h; subst h; rfl)
  | field1 i t r l items d o =>
    refine ⟨?_, ?_, ?_, ?_, ?_, ?_, ?_, ?_, ?_⟩ <;>
      (intro h; simp only [Field.type] at h; subst h; rfl)

theorem primitive_dispatch_exact_witness :
    translateFieldType (.field0 "title" "Symbol" true "" false false)
      = .ok (applyRequired true { type := "String" }) :=
  (primitive_dispatch_exact (.field0 "title" "Symbol" true "" false false)).1 rfl

/-- C9: for a non-array, non-link field, the translation succeeds exactly
when the field's type is one of the nine registered primitive names; for
any other type name the dispatch-table lookup misses and `translateFieldType`
crashes (modelled as the `TypeError` of calling `undefined`). -/
theorem unregistered_primitive_crashes (f : Field)
    (h1 : f.type ≠ "Array") (h2 : f.type ≠ "Link") :
    ((∃ t, translateFieldType f = .ok t) ↔ f.type ∈ registeredTypeNames) ∧
    (f.type ∉ registeredTypeNames →
      translateFieldType f = .error "ContentfulDataTypes.get(...) is not a function") := by
  have hcrash : f.type ∉ registeredTypeNames →
      translateFieldType f = .error "ContentfulDataTypes.get(...) is not a function" := by
    intro hmem
    have hnone := ContentfulDataTypes_lookup_eq_none f.type hmem
    cases f with
    | field0 i t r l d o =>
      simp only [Field.type] at h1 h2 hnone
      simp [translateFieldType, h1, translateNonArray, Field.type, h2, hnone, Except.map]
    | field1 i t r l items d o =>
      simp only [Field.type] at h1 h2 hnone
      simp [translateFieldType, h1, translateNonArray, Field.type, h2, hnone, Except.map]
  refine ⟨⟨?_, ?_⟩, hcrash⟩
  · rintro ⟨t, ht⟩
    by_cases hmem : f.type ∈ registeredTypeNames
    · exact hmem
    · rw [hcrash hmem] at ht
      exact absurd ht (by simp)
  · intro hmem
    simp only [registeredTypeNames, ContentfulDataTypes, List.map_cons, List.mem_cons] at hmem
    cases f with
    | field0 i t r l d o =>
      simp only [Field.type] at hmem
      rcases hmem with h | h | h | h | h | h | h | h | h | h <;>
        first
        | (subst h; exact ⟨_, rfl⟩)
        | simp at h
    | field1 i t r l items d o =>
      simp only [Field.type] at hmem
      rcases hmem with h | h | h | h | h | h | h | h | h | h <;>
        first
        | (subst h; exact ⟨_, rfl⟩)
        | simp at h

theorem unregistered_primitive_crashes_witness :
    ("Unknown" ≠ "Array" ∧ "Unknown" ≠ "Link") ∧
    translateFieldType (.field0 "mystery" "Unknown" false "" false false)
      = .error "ContentfulDataTypes.get(...) is not a function" :=
  ⟨by decide,
    (unregistered_primitive_crashes (.field0 "mystery" "Unknown" false "" false false)
      (by decide) (by decide)).2 (by decide)⟩

/-- C5: for every content-type item whose object type is built successfully
(and whose enabled field ids are distinct, as Contentful guarantees), the
generated field map has pairwise distinct keys, its keys are exactly the
three fixed fields `id`, `sys`, `metadata` together with the ids of the
fields that are neither disabled nor omitted (so disabled or omitted fields
contribute no schema field), each enabled field's key maps to its
translated descriptor, and the type implements the `ContentfulReference`,
`ContentfulEntry` and `Node` interfaces. -/
theorem content_type_field_map (makeTypeName : String → String) (useNameForId : Bool)
    (item : ContentTypeItem) (d : TypeDecl)
    (h : buildContentTypeDecl makeTypeName useNameForId item = .ok d)
    (hnd : (enabledIds item.fields).Nodup) :
    (d.fields.map Prod.fst).Nodup ∧
    (∀ k, k ∈ d.fields.map Prod.fst ↔
      k = "id" ∨ k = "sys" ∨ k = "metadata" ∨
      ∃ f ∈ item.fields, (f.disabled || f.omitted) = false ∧ f.id = k) ∧
    (∀ f ∈ item.fields, (f.disabled || f.omitted) = false →
      ∃ t, translateFieldType f = .ok t ∧ d.fields.lookup f.id = some t) ∧
    d.interfaces = ["ContentfulReference", "ContentfulEntry", "Node"] := by
  obtain ⟨fs, hb, hdf, hif, _, _⟩ :=
    buildContentTypeDecl_ok_parts makeTypeName useNameForId item d h
  have hfixed : (fixedContentTypeFields.map Prod.fst).Nodup := by decide
  have hfsnd : (fs.map Prod.fst).Nodup :=
    buildContentTypeFields_nodup item.fields [] fs hb (by simp)
  refine ⟨?_, ?_, ?_, hif⟩
  · rw [hdf]
    exact objSpread_nodup fs fixedContentTypeFields hfixed
  · intro k
    rw [hdf, objSpread_keys_mem,
      buildContentTypeFields_keys_mem item.fields [] fs hb k]
    simp only [fixedContentTypeFields, List.map_cons, List.map_nil, List.mem_cons,
      List.not_mem_nil, or_false, List.map_nil]
    tauto
  · intro f hf he
    obtain ⟨t, ht, hl⟩ :=
      buildContentTypeFields_lookup_enabled item.fields [] fs hb hnd f hf he
    refine ⟨t, ht, ?_⟩
    rw [hdf]
    exact objSpread_lookup_mem fs fixedContentTypeFields f.id t hfsnd hl

theorem content_type_field_map_witness :
    (enabledIds blogPostItem.fields).Nodup ∧
    (blogPostDecl.fields.map Prod.fst).Nodup ∧
    blogPostDecl.fields.lookup "title" = some { type := "String!" } ∧
    blogPostDecl.interfaces = ["ContentfulReference", "ContentfulEntry", "Node"] := by
  have h := content_type_field_map (fun s => s) true blogPostItem blogPostDecl rfl (by decide)
  refine ⟨by decide, h.1, ?_, h.2.2.2⟩
  obtain ⟨t, ht, hl⟩ :=
    h.2.2.1 (.field0 "title" "Symbol" true "" false false) (by decide) (by decide)
  have hteq : (Except.ok t : Except String FieldType) = .ok { type := "String!" } :=
    ht.symm.trans rfl
  injection hteq with hteq'
  rw [hteq'] at hl
  exact hl

/-- C6 counterexample: the fixed emission sequence declares the type
`ContentfulRichTextAssets` without the `dontInfer` extension, although it
is neither the `ContentfulReference` interface nor the
`ContentfulContentType` descriptor type, refuting the claim that those two
are the only exceptions. -/
theorem dont_infer_claim_counterexample :
    ((fixedTypeDecls { type := "GatsbyImageData" } true).filter
      (fun d => d.name == "ContentfulRichTextAssets")).map TypeDecl.dontInfer
      = [false] := rfl

/-- C6 (amended): every type declared by the fixed emission sequence
carries the `dontInfer` extension except exactly `ContentfulReference`,
`ContentfulContentType`, `ContentfulAsset`, `ContentfulRichTextAssets`,
`ContentfulRichTextEntries` and `ContentfulRichTextLinks`, and every
per-content-type object type carries it. -/
theorem dont_infer_amended (gatsbyImageData : FieldType) (downloadLocal : Bool) :
    (∀ d ∈ fixedTypeDecls gatsbyImageData downloadLocal,
      d.dontInfer = true ↔
        d.name ∉ ["ContentfulReference", "ContentfulContentType", "ContentfulAsset",
          "ContentfulRichTextAssets", "ContentfulRichTextEntries",
          "ContentfulRichTextLinks"]) ∧
    (∀ (makeTypeName : String → String) (useNameForId : Bool)
        (item : ContentTypeItem) (d : TypeDecl),
      buildContentTypeDecl makeTypeName useNameForId item = .ok d →
      d.dontInfer = true) := by
  constructor
  · intro d hd
    simp only [fixedTypeDecls, List.mem_cons, List.not_mem_nil, or_false] at hd
    rcases hd with rfl | rfl | rfl | rfl | rfl | rfl | rfl | rfl | rfl | rfl | rfl | rfl | rfl <;>
      simp [addRemoteFilePolyfillInterface]
  · intro makeTypeName useNameForId item d h
    exact (buildContentTypeDecl_ok_parts makeTypeName useNameForId item d h).choose_spec.2.2.2.1

theorem dont_infer_amended_witness : blogPostDecl.dontInfer = true :=
  (dont_infer_amended { type := "GatsbyImageData" } true).2
    (fun s => s) true blogPostItem blogPostDecl rfl

/-- C7: if the field translation of a content type throws (here: the field
map construction fails with message `m`), `generateSchema` re-raises an
error whose message prepends the content type's name (falling back to its
`sys.id` when the name is empty) to the original message, the failing
content type produces no object type, and no subsequent content type is
processed (the emitted declarations stop at the fixed types). -/
theorem content_type_error_propagation (makeTypeName : String → String)
    (useNameForId : Bool) (item : ContentTypeItem) (rest : List ContentTypeItem)
    (m : String) (h : buildContentTypeFields item.fields [] = .error m) :
    buildContentTypeDecl makeTypeName useNameForId item
      = .error ("Unable to create schema for Contentful Content Type "
          ++ (if item.name = "" then item.sys.id else item.name) ++ ":\n" ++ m) ∧
    processContentTypes makeTypeName useNameForId (item :: rest)
      = ([], some ("Unable to create schema for Contentful Content Type "
          ++ (if item.name = "" then item.sys.id else item.name) ++ ":\n" ++ m)) ∧
    (∀ (gatsbyImageData : FieldType) (downloadLocal : Bool),
      generateSchema makeTypeName gatsbyImageData useNameForId downloadLocal (item :: rest)
        = (fixedTypeDecls gatsbyImageData downloadLocal,
           some ("Unable to create schema for Contentful Content Type "
             ++ (if item.name = "" then item.sys.id else item.name) ++ ":\n" ++ m))) := by
  have h1 : buildContentTypeDecl makeTypeName useNameForId item
      = .error ("Unable to create schema for Contentful Content Type "
          ++ (if item.name = "" then item.sys.id else item.name) ++ ":\n" ++ m) := by
    unfold buildContentTypeDecl
    rw [h]
  have h2 : processContentTypes makeTypeName useNameForId (item :: rest)
      = ([], some ("Unable to create schema for Contentful Content Type "
          ++ (if item.name = "" then item.sys.id else item.name) ++ ":\n" ++ m)) := by
    unfold processContentTypes
    rw [h1]
  refine ⟨h1, h2, ?_⟩
  intro gatsbyImageData downloadLocal
  unfold generateSchema
  rw [h2]
  simp

theorem content_type_error_propagation_witness :
    processContentTypes (fun s => s) true [brokenItem, blogPostItem]
      = ([], some ("Unable to create schema for Contentful Content Type Broken:\n"
          ++ "ContentfulDataTypes.get(...) is not a function")) :=
  ((content_type_error_propagation (fun s => s) true brokenItem [blogPostItem]
    "ContentfulDataTypes.get(...) is not a function" rfl).2.1).trans (by rfl)

/-- C8 counterexample: a stored node owned by this plugin with
`sys.type = "Asset"` whose `sys.id` is the empty string and whose id is
among the extracted ids satisfies the claim's three conditions, yet the
resolver returns the empty list, because the source additionally requires
`node?.sys?.id` to be truthy. -/
theorem rich_text_resolver_claim_counterexample :
    makeRichTextLinksResolver (fun (_ : Unit) _ _ => [""])
        "embedded-asset-block" "Asset" () [emptyIdAssetNode] = [] ∧
    emptyIdAssetNode.internal.owner = "gatsby-source-contentful" ∧
    emptyIdAssetNode.sys = some { id := "", type := "Asset" } ∧
    "" ∈ (fun (_ : Unit) _ _ => [""]) () "embedded-asset-block" "Asset" := by
  refine ⟨rfl, rfl, rfl, ?_⟩
  simp

/-- C8 (amended): the resolver for category `embedded-asset-block` and
entity type `Asset` returns exactly the stored nodes that are owned by
`gatsby-source-contentful`, have a `sys` object with a non-empty (truthy)
id, have `sys.type = "Asset"`, and whose `sys.id` is among the ids
extracted from the document for that category; nodes owned by other source
plugins or with other `sys.type` values are excluded. -/
theorem rich_text_resolver_amended {α : Type}
    (getRichTextEntityLinks : α → String → String → List String)
    (source : α) (allNodes : List NodeRec) (node : NodeRec) :
    node ∈ makeRichTextLinksResolver getRichTextEntityLinks
        "embedded-asset-block" "Asset" source allNodes ↔
      node ∈ allNodes ∧
      node.internal.owner = "gatsby-source-contentful" ∧
      ∃ s, node.sys = some s ∧ s.id ≠ "" ∧ s.type = "Asset" ∧
        s.id ∈ getRichTextEntityLinks source "embedded-asset-block" "Asset" := by
  rw [makeRichTextLinksResolver, List.mem_filter]
  cases hs : node.sys with
  | none => simp [hs]
  | some s =>
    simp only [hs, Bool.and_eq_true, beq_iff_eq, bne_iff_ne, ne_eq,
      List.contains, List.elem_iff, Option.some.injEq, and_assoc]
    constructor
    · rintro ⟨hmem, howner, hid, htype, hlinks⟩
      exact ⟨hmem, howner, s, rfl, hid, htype, hlinks⟩
    · rintro ⟨hmem, howner, s', rfl, hid, htype, hlinks⟩
      exact ⟨hmem, howner, hid, htype, hlinks⟩

/-- C10: model fields are merged after the three fixed fields, so an
enabled model field whose id is `id`, `sys` or `metadata` replaces the
fixed declaration with its own translated descriptor, while each fixed
descriptor (`ID!`, `ContentfulSys!`, `ContentfulMetadata!`) is guaranteed
exactly when no enabled model field shares its id. -/
theorem model_field_shadows_fixed (makeTypeName : String → String) (useNameForId : Bool)
    (item : ContentTypeItem) (d : TypeDecl)
    (h : buildContentTypeDecl makeTypeName useNameForId item = .ok d)
    (hnd : (enabledIds item.fields).Nodup) :
    (∀ f ∈ item.fields, (f.disabled || f.omitted) = false →
      (f.id = "id" ∨ f.id = "sys" ∨ f.id = "metadata") →
      ∃ t, translateFieldType f = .ok t ∧ d.fields.lookup f.id = some t) ∧
    ((∀ f ∈ item.fields, (f.disabled || f.omitted) = false → f.id ≠ "id") →
      d.fields.lookup "id" = some { type := "ID!" }) ∧
    ((∀ f ∈ item.fields, (f.disabled || f.omitted) = false → f.id ≠ "sys") →
      d.fields.lookup "sys" = some { type := "ContentfulSys!" }) ∧
    ((∀ f ∈ item.fields, (f.disabled || f.omitted) = false → f.id ≠ "metadata") →
      d.fields.lookup "metadata" = some { type := "ContentfulMetadata!" }) := by
  obtain ⟨fs, hb, hdf, _, _, _⟩ :=
    buildContentTypeDecl_ok_parts makeTypeName useNameForId item d h
  have hfsnd : (fs.map Prod.fst).Nodup :=
    buildContentTypeFields_nodup item.fields [] fs hb (by simp)
  have hfixedLookup : ∀ k : String,
      (∀ f ∈ item.fields, (f.disabled || f.omitted) = false → f.id ≠ k) →
      d.fields.lookup k = fixedContentTypeFields.lookup k := by
    intro k hk
    have hknot : k ∉ fs.map Prod.fst := by
      rw [buildContentTypeFields_keys_mem item.fields [] fs hb k]
      rintro (hmem | ⟨f, hf, he, hid⟩)
      · simp at hmem
      · exact hk f hf he hid
    rw [hdf]
    exact objSpread_lookup_not_mem fs fixedContentTypeFields k hknot
  refine ⟨?_, ?_, ?_, ?_⟩
  · intro f hf he _
    obtain ⟨t, ht, hl⟩ :=
      buildContentTypeFields_lookup_enabled item.fields [] fs hb hnd f hf he
    refine ⟨t, ht, ?_⟩
    rw [hdf]
    exact objSpread_lookup_mem fs fixedContentTypeFields f.id t hfsnd hl
  · intro hk
    rw [hfixedLookup "id" hk]
    rfl
  · intro hk
    rw [hfixedLookup "sys" hk]
    rfl
  · intro hk
    rw [hfixedLookup "metadata" hk]
    rfl

theorem model_field_shadows_fixed_witness :
    (buildContentTypeDecl (fun s => s) true shadowItem
      = .ok { name := "Shadow",
              fields := [ ("id", { type := "ID!" }),
                          ("sys", { type := "String" }),
                          ("metadata", { type := "ContentfulMetadata!" }) ],
              interfaces := ["ContentfulReference", "ContentfulEntry", "Node"],
              dontInfer := true }) ∧
    ({ name := "Shadow",
       fields := [ ("id", { type := "ID!" }),
                   ("sys", { type := "String" }),
                   ("metadata", { type := "ContentfulMetadata!" }) ],
       interfaces := ["ContentfulReference", "ContentfulEntry", "Node"],
       dontInfer := true } : TypeDecl).fields.lookup "sys" = some { type := "String" } ∧
    ({ name := "Shadow",
       fields := [ ("id", { type := "ID!" }),
                   ("sys", { type := "String" }),
                   ("metadata", { type := "ContentfulMetadata!" }) ],
       interfaces := ["ContentfulReference", "ContentfulEntry", "Node"],
       dontInfer := true } : TypeDecl).fields.lookup "metadata"
      = some { type := "ContentfulMetadata!" } := by
  refine ⟨rfl, ?_, ?_⟩
  · obtain ⟨t, ht, hl⟩ :=
      (model_field_shadows_fixed (fun s => s) true shadowItem _ rfl (by decide)).1
        (.field0 "sys" "Symbol" false "" false false) (by decide) (by decide)
        (by decide)
    have hteq : (Except.ok t : Except String FieldType) = .ok { type := "String" } :=
      ht.symm.trans rfl
    injection hteq with hteq'
    rw [hteq'] at hl
    exact hl
  · exact (model_field_shadows_fixed (fun s => s) true shadowItem _ rfl (by decide)).2.2.2
      (by decide)

end ContentfulSchema
